import Mathlib

/-!
Verification of the investor-CRM client logic: CSV bulk import, the
pipeline joiner, the add-to-pipeline flow, snapshot-driven project
selection and the interaction history.

Modelling conventions: JavaScript strings are Lean `String`s, JavaScript
objects are association lists in which the most recent assignment comes
first, Firestore collections are association lists keyed by document id,
and instants (JavaScript `Date` values and store timestamps) are `Nat`.
-/

namespace InvestidoresPacta

/-- Splits a character list at every occurrence of `c`; mirrors JavaScript
`String.prototype.split` with a one-character separator (an empty input
yields one empty field, adjacent separators yield empty fields). -/
def splitCharList (c : Char) : List Char → List (List Char)
  | [] => [[]]
  | x :: xs =>
    if x = c then [] :: splitCharList c xs
    else
      match splitCharList c xs with
      | [] => [[x]]
      | y :: ys => (x :: y) :: ys

/-- JavaScript `s.split(c)` for a one-character separator `c`. -/
def jsSplit (s : String) (c : Char) : List String :=
  (splitCharList c s.data).map String.mk

/-- JavaScript `s.trim()`: strips leading and trailing whitespace. -/
def jsTrim (s : String) : String :=
  String.mk (((s.data.dropWhile Char.isWhitespace).reverse.dropWhile
    Char.isWhitespace).reverse)

/-- Numeric value of a list of decimal digits, most significant first. -/
def digitsVal (cs : List Char) : Nat :=
  cs.foldl (fun n c => 10 * n + (c.toNat - '0'.toNat)) 0

/-- JavaScript `parseInt(s, 10)`: skip leading whitespace, read an optional
sign and then the longest prefix of decimal digits; `none` models `NaN`
(no digits at all). -/
def parseIntJS (s : String) : Option Int :=
  let t := s.data.dropWhile Char.isWhitespace
  let signRest : Int × List Char :=
    match t with
    | '-' :: cs => (-1, cs)
    | '+' :: cs => (1, cs)
    | cs => (1, cs)
  let ds := signRest.2.takeWhile Char.isDigit
  if ds.isEmpty then none else some (signRest.1 * (digitsVal ds : Int))

/-- JavaScript `parseInt(s, 10) || 0`: `NaN` collapses to `0` (a parsed `0`
or `-0` is falsy as well and also yields `0`). -/
def jsParseOr0 (s : String) : Int :=
  match parseIntJS s with
  | none => 0
  | some n => n

/-! ## The CSV importer (`CsvImportModal.handleImport`) -/

/-- A parsed CSV row object: header name to cell value; the most recent
assignment is first, so lookup takes the first match. -/
abbrev Row := List (String × String)

/-- Property access `row[k]`; `none` models `undefined`. -/
def rowGet (row : Row) (k : String) : Option String :=
  (row.find? (fun kv => kv.1 == k)).map (fun kv => kv.2)

/-- The cell expression `values[index] ? values[index].trim() : ''` from
`handleImport`: a missing cell (`undefined`) and an empty cell are both
falsy and give `''`. -/
def tokAt (values : List String) (i : Nat) : String :=
  match values.get? i with
  | some s => if s = "" then "" else jsTrim s
  | none => ""

/-- `headers.reduce((obj, header, index) => { obj[header] = values[index] ?
values[index].trim() : ''; return obj; }, {})`: object assignment is
modelled by consing, so a later duplicate header shadows an earlier one,
exactly as repeated assignment does in JavaScript. -/
def rowToObj (headers : List String) (values : List String) : Row :=
  headers.enum.foldl (fun obj ih => (ih.2, tokAt values ih.1) :: obj) []

/-- The document written for one imported investor (`mappedData`). -/
structure InvestorRecord where
  nomeFantasia : String
  classificacao : String
  tipo : String
  setor : String
  creditoEquity : String
  nota : Int
  justificativa : String
  email1 : String
  email2 : String
  telefone : String
  linkedin : String
  dataDeCriacao : Nat
deriving DecidableEq, Repr

/-- `investorData[k] || ''`: `undefined` and `''` both give `''`. -/
def strAt (row : Row) (k : String) : String :=
  match rowGet row k with
  | some s => s
  | none => ""

/-- `parseInt(investorData['Nota'], 10) || 0`; `parseInt(undefined, 10)`
is `NaN`, which `|| 0` collapses to `0`. -/
def notaAt (row : Row) : Int :=
  match rowGet row "Nota" with
  | some s => jsParseOr0 s
  | none => 0

/-- The `mappedData` object built in `handleImport` for one data row,
with `dataDeCriacao := now` for `new Date()`. -/
def mappedData (row : Row) (now : Nat) : InvestorRecord where
  nomeFantasia := strAt row "NomeFantasia"
  classificacao := strAt row "Classificação"
  tipo := strAt row "Tipo"
  setor := strAt row "Setor"
  creditoEquity := strAt row "Crédito/Equity"
  nota := notaAt row
  justificativa := strAt row "Justificativa"
  email1 := strAt row "Email 1"
  email2 := strAt row "Email 2"
  telefone := strAt row "Telefone"
  linkedin := strAt row "Linkedin"
  dataDeCriacao := now

/-- The header line shown to the user by the import modal. -/
def expectedHeaders : String :=
  "NomeFantasia;Classificação;Tipo;Setor;Crédito/Equity;Nota;Justificativa;Email 1;Email 2;Telefone;Linkedin"

/-- The header list obtained from the expected header line, exactly as
`handleImport` computes it: `line.trim().split(';').map(h => h.trim())`. -/
def stdHeaders : List String :=
  (jsSplit (jsTrim expectedHeaders) ';').map jsTrim

/-- Outcome of `handleImport`: either the early user-error return (blank
input) or a single `writeBatch` committed with one `set` per data row. -/
inductive ImportResult where
  | rejected : ImportResult
  | batchCommit : List (String × InvestorRecord) → ImportResult
deriving DecidableEq, Repr

/-- `CsvImportModal.handleImport`: reject blank input, otherwise split the
pasted text into lines, take the first line as the header row, map every
remaining line through `rowToObj`/`mappedData`, and commit one batch with
a freshly generated document id (`gen i` for the `i`-th row) per record. -/
def handleImport (csvData : String) (gen : Nat → String) (now : Nat) : ImportResult :=
  if jsTrim csvData = "" then ImportResult.rejected
  else
    let lines := jsSplit (jsTrim csvData) '\n'
    let headers := (jsSplit (jsTrim (lines.headD "")) ';').map jsTrim
    let dataLines := lines.tail
    ImportResult.batchCommit
      (dataLines.enum.map (fun p =>
        (gen p.1, mappedData (rowToObj headers (jsSplit (jsTrim p.2) ';')) now)))

/-! ## The record store: document `set` and atomic batch commit -/

/-- Firestore `set` on a collection with unique document ids: replace the
document carrying this id, or append a new document. -/
def docSet {α : Type} : List (String × α) → String → α → List (String × α)
  | [], i, a => [(i, a)]
  | d :: ds, i, a => if d.1 = i then (i, a) :: ds else d :: docSet ds i a

/-- Fetch a document by id. -/
def docGet {α : Type} (c : List (String × α)) (i : String) : Option α :=
  (c.find? (fun d => d.1 == i)).map (fun d => d.2)

/-- Committing a write batch applies its `set` operations in order. -/
def commitBatch {α : Type} (c : List (String × α)) (ws : List (String × α)) :
    List (String × α) :=
  ws.foldl (fun acc w => docSet acc w.1 w.2) c

/-- All-or-nothing outcome of `batch.commit()` for the importer: a failed
commit leaves the store untouched, a successful one applies every write. -/
def applyBatchResult (store : List (String × InvestorRecord)) (r : ImportResult)
    (ok : Bool) : List (String × InvestorRecord) :=
  match r with
  | ImportResult.rejected => store
  | ImportResult.batchCommit ws => if ok then commitBatch store ws else store

theorem docGet_cons {α : Type} (d : String × α) (ds : List (String × α)) (k : String) :
    docGet (d :: ds) k = if d.1 == k then some d.2 else docGet ds k := by
  cases h : (d.1 == k) <;> simp [docGet, List.find?_cons, h]

theorem docGet_docSet_self {α : Type} (c : List (String × α)) (i : String) (a : α) :
    docGet (docSet c i a) i = some a := by
  induction c with
  | nil => simp [docSet, docGet_cons]
  | cons d ds ih =>
    by_cases h : d.1 = i
    · simp [docSet, h, docGet_cons]
    · have hdk : (d.1 == i) = false := beq_eq_false_iff_ne.2 h
      simp [docSet, h, docGet_cons, hdk, ih]

theorem docGet_docSet_ne {α : Type} (c : List (String × α)) (i k : String) (a : α)
    (h : k ≠ i) : docGet (docSet c i a) k = docGet c k := by
  induction c with
  | nil =>
    have hik : (i == k) = false := beq_eq_false_iff_ne.2 (Ne.symm h)
    simp [docSet, docGet_cons, hik, docGet, List.find?]
  | cons d ds ih =>
    by_cases hd : d.1 = i
    · have h1 : (i == k) = false := beq_eq_false_iff_ne.2 (Ne.symm h)
      have h2 : (d.1 == k) = false := beq_eq_false_iff_ne.2 (by rw [hd]; exact Ne.symm h)
      simp [docSet, hd, docGet_cons, h1, h2]
    · simp [docSet, hd, docGet_cons, ih]

theorem keys_docSet {α : Type} (c : List (String × α)) (i : String) (a : α) :
    (docSet c i a).map Prod.fst =
      if i ∈ c.map Prod.fst then c.map Prod.fst else c.map Prod.fst ++ [i] := by
  induction c with
  | nil => simp [docSet]
  | cons d ds ih =>
    by_cases h : d.1 = i
    · simp [docSet, h]
    · simp only [docSet, if_neg h, List.map_cons, ih]
      by_cases hmem : i ∈ ds.map Prod.fst
      · simp [hmem, Ne.symm h]
      · simp [hmem, Ne.symm h]

theorem nodup_keys_docSet {α : Type} (c : List (String × α)) (i : String) (a : α)
    (h : (c.map Prod.fst).Nodup) : ((docSet c i a).map Prod.fst).Nodup := by
  rw [keys_docSet]
  split
  · exact h
  · next hmem => simp [List.nodup_append, h, hmem]

theorem nodup_keys_commitBatch {α : Type} (ws : List (String × α))
    (c : List (String × α)) (h : (c.map Prod.fst).Nodup) :
    ((commitBatch c ws).map Prod.fst).Nodup := by
  induction ws generalizing c with
  | nil => exact h
  | cons w ws ih => exact ih (docSet c w.1 w.2) (nodup_keys_docSet c w.1 w.2 h)

theorem docGet_commitBatch_notMem {α : Type} (ws : List (String × α))
    (c : List (String × α)) (k : String) (h : k ∉ ws.map Prod.fst) :
    docGet (commitBatch c ws) k = docGet c k := by
  induction ws generalizing c with
  | nil => rfl
  | cons w ws ih =>
    have hk : k ≠ w.1 := by
      intro hk; exact h (by simp [hk])
    have htail : k ∉ ws.map Prod.fst := by
      intro hmem; exact h (by simp [hmem])
    calc docGet (commitBatch (docSet c w.1 w.2) ws) k
        = docGet (docSet c w.1 w.2) k := ih (docSet c w.1 w.2) htail
      _ = docGet c k := docGet_docSet_ne c w.1 k w.2 hk

theorem docGet_commitBatch_mem {α : Type} (ws : List (String × α))
    (c : List (String × α)) (k : String) (a : α)
    (hnd : (ws.map Prod.fst).Nodup) (hmem : (k, a) ∈ ws) :
    docGet (commitBatch c ws) k = some a := by
  induction ws generalizing c with
  | nil => cases hmem
  | cons w ws ih =>
    rcases List.mem_cons.1 hmem with hw | hw
    · have hk : k = w.1 := by rw [← hw]
      have hnotin : k ∉ ws.map Prod.fst := by
        rw [hk]
        exact (List.nodup_cons.1 (by simpa using hnd)).1
      calc docGet (commitBatch (docSet c w.1 w.2) ws) k
          = docGet (docSet c w.1 w.2) k :=
            docGet_commitBatch_notMem ws (docSet c w.1 w.2) k hnotin
        _ = some a := by rw [hk, ← hw]; exact docGet_docSet_self c k a
    · exact ih (docSet c w.1 w.2) (List.nodup_cons.1 (by simpa using hnd)).2 hw

theorem map_enum_fst_comp {α β : Type} (l : List α) (g : Nat → β) :
    l.enum.map (fun p => g p.1) = (List.range l.length).map g := by
  rw [← List.enum_map_fst l, List.map_map]
  rfl

/-- The batch built by `handleImport` once the pasted text has been split
into `headerLine :: rows`. -/
def importBatch (headerLine : String) (rows : List String) (gen : Nat → String)
    (now : Nat) : List (String × InvestorRecord) :=
  rows.enum.map (fun p =>
    (gen p.1,
     mappedData (rowToObj ((jsSplit (jsTrim headerLine) ';').map jsTrim)
       (jsSplit (jsTrim p.2) ';')) now))

theorem importBatch_keys (headerLine : String) (rows : List String)
    (gen : Nat → String) (now : Nat) :
    (importBatch headerLine rows gen now).map Prod.fst
      = (List.range rows.length).map gen := by
  unfold importBatch
  rw [List.map_map]
  exact map_enum_fst_comp rows gen

/-- C1 counterexample: input consisting of a single header line and no data
lines is not rejected by `handleImport`; it proceeds past the blank-input
guard and commits an empty batch. -/
theorem claimC1_cex :
    handleImport "NomeFantasia;Classificação;Tipo" (fun _ => "id0") 0
        = ImportResult.batchCommit []
      ∧ handleImport "NomeFantasia;Classificação;Tipo" (fun _ => "id0") 0
        ≠ ImportResult.rejected := by
  constructor <;> decide

/-- C1 (amended): blank or whitespace-only input is rejected as a user error
before any parsing and nothing is written; header-only input (no data lines
after the first line) is however not rejected — it is parsed and an empty
batch is committed, which writes no record (the store is unchanged whether
the commit succeeds or fails) but is reported as a successful import. -/
theorem claimC1 (csvData : String) (gen : Nat → String) (now : Nat)
    (store : List (String × InvestorRecord)) :
    (jsTrim csvData = "" → handleImport csvData gen now = ImportResult.rejected)
    ∧ (jsTrim csvData ≠ "" → (jsSplit (jsTrim csvData) '\n').tail = [] →
        handleImport csvData gen now = ImportResult.batchCommit []
        ∧ ∀ ok, applyBatchResult store (handleImport csvData gen now) ok = store) := by
  constructor
  · intro h
    simp [handleImport, h]
  · intro hne htail
    have hres : handleImport csvData gen now = ImportResult.batchCommit [] := by
      simp only [handleImport]
      rw [if_neg hne, htail]
      rfl
    refine ⟨hres, fun ok => ?_⟩
    rw [hres]
    cases ok <;> rfl

/-- C1 witness: the two branches of the amended claim at concrete inputs —
whitespace-only input is rejected, a lone header line commits an empty
batch and leaves an empty store empty. -/
theorem claimC1_witness :
    handleImport " \n " (fun _ => "w") 1 = ImportResult.rejected
    ∧ (handleImport "NomeFantasia;Nota" (fun _ => "w") 1 = ImportResult.batchCommit []
       ∧ ∀ ok, applyBatchResult [] (handleImport "NomeFantasia;Nota" (fun _ => "w") 1) ok
          = []) :=
  ⟨(claimC1 " \n " (fun _ => "w") 1 []).1 (by decide),
   (claimC1 "NomeFantasia;Nota" (fun _ => "w") 1 []).2 (by decide) (by decide)⟩

/-- C4: under the recognized header row, every data row is mapped so that
the rating field `Nota` is the integer parse of its cell with `0` on parse
failure, every other recognized field is the trimmed string cell at its
column, and any missing cell (the row being shorter than the header) yields
the empty-string default. -/
theorem claimC4 (values : List String) (now : Nat) :
    (mappedData (rowToObj stdHeaders values) now).nota = jsParseOr0 (tokAt values 5)
    ∧ (parseIntJS (tokAt values 5) = none →
        (mappedData (rowToObj stdHeaders values) now).nota = 0)
    ∧ (mappedData (rowToObj stdHeaders values) now).nomeFantasia = tokAt values 0
    ∧ (mappedData (rowToObj stdHeaders values) now).classificacao = tokAt values 1
    ∧ (mappedData (rowToObj stdHeaders values) now).tipo = tokAt values 2
    ∧ (mappedData (rowToObj stdHeaders values) now).setor = tokAt values 3
    ∧ (mappedData (rowToObj stdHeaders values) now).creditoEquity = tokAt values 4
    ∧ (mappedData (rowToObj stdHeaders values) now).justificativa = tokAt values 6
    ∧ (mappedData (rowToObj stdHeaders values) now).email1 = tokAt values 7
    ∧ (mappedData (rowToObj stdHeaders values) now).email2 = tokAt values 8
    ∧ (mappedData (rowToObj stdHeaders values) now).telefone = tokAt values 9
    ∧ (mappedData (rowToObj stdHeaders values) now).linkedin = tokAt values 10
    ∧ (∀ i, values.length ≤ i → tokAt values i = "") := by
  refine ⟨rfl, ?_, rfl, rfl, rfl, rfl, rfl, rfl, rfl, rfl, rfl, rfl, ?_⟩
  · intro h
    show jsParseOr0 (tokAt values 5) = 0
    simp [jsParseOr0, h]
  · intro i hi
    simp [tokAt, List.getElem?_eq_none, hi]

/-- C4 witness: a row whose rating cell is the non-numeric token `quatro`
gets rating `0` while its name still maps, and a missing column gives the
empty string. -/
theorem claimC4_witness :
    (mappedData (rowToObj stdHeaders
        ["Acme", "VC", "Fundo", "Tech", "Equity", "quatro"]) 7).nota = 0
    ∧ tokAt ["Acme", "VC", "Fundo", "Tech", "Equity", "quatro"] 9 = "" :=
  ⟨(claimC4 ["Acme", "VC", "Fundo", "Tech", "Equity", "quatro"] 7).2.1 (by decide),
   (claimC4 ["Acme", "VC", "Fundo", "Tech", "Equity", "quatro"]
      7).2.2.2.2.2.2.2.2.2.2.2.2 9 (by decide)⟩

/-- C5: importing one header line followed by `N` well-formed data lines
commits one single batch of exactly `N` investor records, each carrying a
freshly generated (pairwise distinct) identifier and the creation
timestamp; the batch is all-or-nothing — a failed commit leaves the store
untouched and a successful one persists every record of the batch. -/
theorem claimC5 (csvData : String) (gen : Nat → String) (now : Nat)
    (headerLine : String) (rows : List String)
    (store : List (String × InvestorRecord))
    (hne : jsTrim csvData ≠ "")
    (hsplit : jsSplit (jsTrim csvData) '\n' = headerLine :: rows)
    (hinj : Function.Injective gen) :
    ∃ ws, handleImport csvData gen now = ImportResult.batchCommit ws
      ∧ ws.length = rows.length
      ∧ ws.map Prod.fst = (List.range rows.length).map gen
      ∧ (ws.map Prod.fst).Nodup
      ∧ (∀ w ∈ ws, (w.2).dataDeCriacao = now)
      ∧ applyBatchResult store (handleImport csvData gen now) false = store
      ∧ (∀ w ∈ ws,
          docGet (applyBatchResult store (handleImport csvData gen now) true) w.1
            = some w.2) := by
  have hres : handleImport csvData gen now
      = ImportResult.batchCommit (importBatch headerLine rows gen now) := by
    simp only [handleImport]
    rw [if_neg hne, hsplit]
    rfl
  have hkeys := importBatch_keys headerLine rows gen now
  have hnd : ((importBatch headerLine rows gen now).map Prod.fst).Nodup := by
    rw [hkeys]
    exact (List.nodup_range rows.length).map hinj
  refine ⟨importBatch headerLine rows gen now, hres, ?_, hkeys, hnd, ?_, ?_, ?_⟩
  · simp [importBatch, List.enum_length]
  · intro w hw
    rcases List.mem_map.1 hw with ⟨p, _, rfl⟩
    rfl
  · rw [hres]
    rfl
  · intro w hw
    rw [hres]
    show docGet (commitBatch store (importBatch headerLine rows gen now)) w.1 = some w.2
    exact docGet_commitBatch_mem _ store w.1 w.2 hnd (by simpa using hw)

/-- C5 witness: importing two data rows under a two-column header commits a
batch of two records with distinct fresh identifiers and the creation
timestamp, and both records are retrievable after a successful commit. -/
theorem claimC5_witness :
    ∃ ws, handleImport "NomeFantasia;Nota\nAcme;4\nBeta;x"
          (fun n => String.mk (List.replicate n 'a')) 3
        = ImportResult.batchCommit ws
      ∧ ws.length = (["Acme;4", "Beta;x"] : List String).length
      ∧ ws.map Prod.fst = (List.range (["Acme;4", "Beta;x"] : List String).length).map
          (fun n => String.mk (List.replicate n 'a'))
      ∧ (ws.map Prod.fst).Nodup
      ∧ (∀ w ∈ ws, (w.2).dataDeCriacao = 3)
      ∧ applyBatchResult [] (handleImport "NomeFantasia;Nota\nAcme;4\nBeta;x"
          (fun n => String.mk (List.replicate n 'a')) 3) false = []
      ∧ (∀ w ∈ ws,
          docGet (applyBatchResult [] (handleImport "NomeFantasia;Nota\nAcme;4\nBeta;x"
            (fun n => String.mk (List.replicate n 'a')) 3) true) w.1 = some w.2) :=
  claimC5 "NomeFantasia;Nota\nAcme;4\nBeta;x"
    (fun n => String.mk (List.replicate n 'a')) 3 "NomeFantasia;Nota"
    ["Acme;4", "Beta;x"] [] (by decide) (by decide)
    (fun a b h => by simpa using congrArg (fun s => s.data.length) h)

/-! ## Interaction records -/

/-- One logged interaction (`{ data, tipo, anotacoes }`); the instant is a
`Nat`. -/
structure Interaction where
  data : Nat
  tipo : String
  anotacoes : String
deriving DecidableEq, Repr

/-! ## JavaScript objects and the pipeline joiner -/

/-- A JavaScript field value as it occurs in this application's documents. -/
inductive Value where
  | vStr : String → Value
  | vInt : Int → Value
  | vInteractions : List Interaction → Value
deriving DecidableEq, Repr

/-- A JavaScript object: association list with the most recent assignment
first. -/
abbrev Obj := List (String × Value)

/-- Property access `o[k]`; `none` models `undefined`. -/
def objGet (o : Obj) (k : String) : Option Value :=
  docGet o k

/-- Whether the object has the field `k`. -/
def objHasKey (o : Obj) (k : String) : Bool :=
  (objGet o k).isSome

/-- JavaScript object spread `{ ...a, ...b }`: the result carries the keys
of both objects and `b` wins on a shared key; with lookup-first
association lists this is `b ++ a`. -/
def jsSpread (a b : Obj) : Obj := b ++ a

/-- A master investor as held in memory: `snap.docs.map(d => ({ id: d.id,
...d.data() }))` — the document id alongside the document data (which in
this application never stores an `id` field of its own). -/
structure MasterInvestor where
  id : String
  fields : Obj
deriving DecidableEq, Repr

/-- The in-memory master-investor object `{ id: d.id, ...d.data() }`. -/
def masterObj (m : MasterInvestor) : Obj :=
  jsSpread [("id", Value.vStr m.id)] m.fields

/-- The merged project-investor record
`{ id: doc.id, ...masterData, ...pipelineData }`. -/
def mergedRecord (docId : String) (m : MasterInvestor) (p : Obj) : Obj :=
  jsSpread (jsSpread [("id", Value.vStr docId)] (masterObj m)) p

/-- The join in the pipeline `onSnapshot` callback: map each pipeline doc
to its merged record, or to `null` when no master investor carries its id,
then drop the `null`s (`.filter(Boolean)`). -/
def joinPipeline (masters : List MasterInvestor) (pdocs : List (String × Obj)) :
    List Obj :=
  (pdocs.map (fun d =>
    match masters.find? (fun mi => mi.id == d.1) with
    | some m => some (mergedRecord d.1 m d.2)
    | none => none)).reduceOption

theorem docGet_append {α : Type} (a b : List (String × α)) (k : String) :
    docGet (a ++ b) k = (docGet a k).or (docGet b k) := by
  induction a with
  | nil => rfl
  | cons kv a ih =>
    cases h : (kv.1 == k) <;> simp [List.cons_append, docGet_cons, h, ih, Option.or]

theorem objGet_nil (k : String) : objGet [] k = none := rfl

theorem objGet_cons (kv : String × Value) (o : Obj) (k : String) :
    objGet (kv :: o) k = if kv.1 == k then some kv.2 else objGet o k :=
  docGet_cons kv o k

theorem objGet_append (a b : Obj) (k : String) :
    objGet (a ++ b) k = (objGet a k).or (objGet b k) :=
  docGet_append a b k

theorem objGet_masterObj_id (m : MasterInvestor)
    (hm : objGet m.fields "id" = none) :
    objGet (masterObj m) "id" = some (Value.vStr m.id) := by
  show objGet (m.fields ++ [("id", Value.vStr m.id)]) "id" = _
  rw [objGet_append, hm]
  rfl

theorem objGet_mergedRecord_id (docId : String) (m : MasterInvestor) (p : Obj)
    (hm : objGet m.fields "id" = none) (hp : objGet p "id" = none) :
    objGet (mergedRecord docId m p) "id" = some (Value.vStr m.id) := by
  show objGet (p ++ (masterObj m ++ [("id", Value.vStr docId)])) "id" = _
  rw [objGet_append, hp, objGet_append, objGet_masterObj_id m hm]
  rfl

theorem any_eq_isSome_find? {α : Type} (l : List α) (p : α → Bool) :
    l.any p = (l.find? p).isSome := by
  induction l with
  | nil => rfl
  | cons a l ih => cases h : p a <;> simp [List.any_cons, List.find?_cons, h, ih]

theorem joinPipeline_ids (masters : List MasterInvestor)
    (pdocs : List (String × Obj))
    (hm : ∀ m ∈ masters, objGet m.fields "id" = none)
    (hp : ∀ d ∈ pdocs, objGet d.2 "id" = none) :
    (joinPipeline masters pdocs).map (fun o => objGet o "id")
      = (pdocs.filter
          (fun d => (masters.find? (fun mi => mi.id == d.1)).isSome)).map
          (fun d => some (Value.vStr d.1)) := by
  induction pdocs with
  | nil => rfl
  | cons d rest ih =>
    have hd : objGet d.2 "id" = none := hp d (List.mem_cons_self d rest)
    have hrest := ih (fun x hx => hp x (List.mem_cons_of_mem d hx))
    cases hfind : masters.find? (fun mi => mi.id == d.1) with
    | none =>
      simp only [joinPipeline, List.map_cons, hfind, List.reduceOption_cons_of_none,
        List.filter_cons, Option.isSome_none, Bool.false_eq_true, if_false]
      exact hrest
    | some m =>
      have hmem : m ∈ masters := List.mem_of_find?_eq_some hfind
      have hmid : m.id = d.1 := by
        have := List.find?_some hfind
        exact eq_of_beq this
      simp only [joinPipeline, List.map_cons, hfind, List.reduceOption_cons_of_some,
        List.filter_cons, Option.isSome_some, if_true, List.map_cons]
      rw [objGet_mergedRecord_id d.1 m d.2 (hm m hmem) hd, hmid]
      exact congrArg (List.cons _) hrest

/-- C2: the derived project-investor list contains exactly the pipeline
entries whose identifier matches some master investor's identifier, in
order; a pipeline entry whose master investor is absent is silently
omitted (no output element carries its identifier). -/
theorem claimC2 (masters : List MasterInvestor) (pdocs : List (String × Obj))
    (hm : ∀ m ∈ masters, objGet m.fields "id" = none)
    (hp : ∀ d ∈ pdocs, objGet d.2 "id" = none) :
    ((joinPipeline masters pdocs).map (fun o => objGet o "id")
        = (pdocs.filter (fun d => masters.any (fun mi => mi.id == d.1))).map
            (fun d => some (Value.vStr d.1)))
    ∧ (∀ d ∈ pdocs, (∀ m ∈ masters, m.id ≠ d.1) →
        ∀ o ∈ joinPipeline masters pdocs, objGet o "id" ≠ some (Value.vStr d.1)) := by
  have hfun : (fun d : String × Obj => masters.any (fun mi => mi.id == d.1))
      = (fun d : String × Obj =>
          (masters.find? (fun mi => mi.id == d.1)).isSome) := by
    funext d
    exact any_eq_isSome_find? masters (fun mi => mi.id == d.1)
  have hids : (joinPipeline masters pdocs).map (fun o => objGet o "id")
      = (pdocs.filter (fun d => masters.any (fun mi => mi.id == d.1))).map
          (fun d => some (Value.vStr d.1)) := by
    rw [hfun]
    exact joinPipeline_ids masters pdocs hm hp
  refine ⟨hids, ?_⟩
  intro d _ hnone o ho heq
  have hmemmap : objGet o "id"
      ∈ (joinPipeline masters pdocs).map (fun o => objGet o "id") :=
    List.mem_map_of_mem (fun o => objGet o "id") ho
  rw [hids] at hmemmap
  rcases List.mem_map.1 hmemmap with ⟨d', hd', heq'⟩
  rcases List.mem_filter.1 hd' with ⟨_, hany⟩
  rcases List.any_eq_true.1 hany with ⟨mi, hmi, hbeq⟩
  have h1 : d'.1 = d.1 := by
    rw [heq] at heq'
    simpa using heq'
  exact hnone mi hmi (by rw [← h1]; exact eq_of_beq hbeq)

/-- C2 witness: one master investor `i1`, a pipeline carrying entries `i1`
and `i2`; the derived output consists of exactly the `i1` merge, and no
output element carries `i2`. -/
theorem claimC2_witness :
    (joinPipeline [⟨"i1", [("setor", Value.vStr "Tech")]⟩]
        [("i1", [("status", Value.vStr "Contatado")]), ("i2", [])]).map
        (fun o => objGet o "id")
      = [some (Value.vStr "i1")] := by
  have h := (claimC2 [⟨"i1", [("setor", Value.vStr "Tech")]⟩]
    [("i1", [("status", Value.vStr "Contatado")]), ("i2", [])]
    (by decide) (by decide)).1
  rw [h]
  decide

/-- C3: the merged project-investor record has exactly the fields of the
master record and of the pipeline entry together, and on every field
present in the pipeline entry the pipeline value is the one that appears
in the merged record (pipeline fields take precedence). -/
theorem claimC3 (m : MasterInvestor) (p : Obj) (docId : String) (k : String) :
    (objHasKey (mergedRecord docId m p) k
        = (objHasKey (masterObj m) k || objHasKey p k))
    ∧ (∀ v, objGet p k = some v → objGet (mergedRecord docId m p) k = some v) := by
  constructor
  · show (objGet (p ++ ((m.fields ++ [("id", Value.vStr m.id)])
        ++ [("id", Value.vStr docId)])) k).isSome
      = ((objGet (m.fields ++ [("id", Value.vStr m.id)]) k).isSome
        || (objGet p k).isSome)
    rw [objGet_append, objGet_append, objGet_append]
    cases hpk : objGet p k <;> cases hf : objGet m.fields k <;>
      cases hi : (("id" : String) == k) <;>
        simp [objGet_cons, objGet_nil, hi, Option.or]
  · intro v hv
    show objGet (p ++ (masterObj m ++ [("id", Value.vStr docId)])) k = some v
    rw [objGet_append, hv]
    rfl

/-- C3 witness: a master with fields `setor`, `nota` and a pipeline entry
with fields `status`, `nota`; the merged record has all the fields of both
and the pipeline's `nota` wins on the shared field. -/
theorem claimC3_witness :
    objHasKey
        (mergedRecord "i1" ⟨"i1", [("setor", Value.vStr "Tech"), ("nota", Value.vInt 4)]⟩
          [("status", Value.vStr "Contatado"), ("nota", Value.vInt 2)]) "setor"
      = (objHasKey (masterObj ⟨"i1", [("setor", Value.vStr "Tech"), ("nota", Value.vInt 4)]⟩)
          "setor"
        || objHasKey [("status", Value.vStr "Contatado"), ("nota", Value.vInt 2)] "setor")
    ∧ objGet
        (mergedRecord "i1" ⟨"i1", [("setor", Value.vStr "Tech"), ("nota", Value.vInt 4)]⟩
          [("status", Value.vStr "Contatado"), ("nota", Value.vInt 2)]) "nota"
      = some (Value.vInt 2) :=
  ⟨(claimC3 ⟨"i1", [("setor", Value.vStr "Tech"), ("nota", Value.vInt 4)]⟩
      [("status", Value.vStr "Contatado"), ("nota", Value.vInt 2)] "i1" "setor").1,
   (claimC3 ⟨"i1", [("setor", Value.vStr "Tech"), ("nota", Value.vInt 4)]⟩
      [("status", Value.vStr "Contatado"), ("nota", Value.vInt 2)] "i1" "nota").2
      (Value.vInt 2) (by decide)⟩

/-! ## The add-to-pipeline dialog: candidate list -/

/-- JavaScript strict equality `x === f` between a possibly-`undefined`
object field and a filter string: `undefined` and non-string values never
equal a string. -/
def optEqStr (v : Option Value) (s : String) : Bool :=
  match v with
  | some (Value.vStr t) => t == s
  | _ => false

/-- `AddInvestorToProjectModal.availableInvestors`: the master investors
whose id is not in `new Set(projectInvestors.map(pi => pi.id))` (the
derived project-investor list) and that pass the two optional filters
(`filter === '' || mi.field === filter`). -/
def availableInvestors (masterInvestors : List MasterInvestor)
    (projectInvestors : List Obj)
    (classificationFilter sectorFilter : String) : List MasterInvestor :=
  masterInvestors.filter (fun mi =>
    !((projectInvestors.map (fun pi => objGet pi "id")).contains
        (some (Value.vStr mi.id)))
      && (classificationFilter == ""
          || optEqStr (objGet mi.fields "classificacao") classificationFilter)
      && (sectorFilter == "" || optEqStr (objGet mi.fields "setor") sectorFilter))

/-- C7: the candidate list offered by the add-to-pipeline dialog holds
exactly the master investors whose identifier is not in the selected
project's pipeline, with the investor's classification tag required to
equal the classification filter when that filter is set, likewise for the
sector filter, and an empty filter imposing no constraint. -/
theorem claimC7 (masters : List MasterInvestor) (pdocs : List (String × Obj))
    (cf sf : String) (mi : MasterInvestor)
    (hm : ∀ m ∈ masters, objGet m.fields "id" = none)
    (hp : ∀ d ∈ pdocs, objGet d.2 "id" = none) :
    mi ∈ availableInvestors masters (joinPipeline masters pdocs) cf sf
      ↔ mi ∈ masters
        ∧ (∀ d ∈ pdocs, d.1 ≠ mi.id)
        ∧ (cf ≠ "" → optEqStr (objGet mi.fields "classificacao") cf = true)
        ∧ (sf ≠ "" → optEqStr (objGet mi.fields "setor") sf = true) := by
  have hids := joinPipeline_ids masters pdocs hm hp
  have hfun : (fun d : String × Obj =>
      (masters.find? (fun x => x.id == d.1)).isSome) = fun d => masters.any
        (fun x => x.id == d.1) := by
    funext d
    exact (any_eq_isSome_find? masters (fun x => x.id == d.1)).symm
  constructor
  · intro h
    simp only [availableInvestors] at h
    rcases List.mem_filter.1 h with ⟨hmi, hpred⟩
    simp only [Bool.and_eq_true, Bool.not_eq_true', Bool.or_eq_true,
      beq_iff_eq] at hpred
    obtain ⟨⟨hnc, hcf⟩, hsf⟩ := hpred
    refine ⟨hmi, ?_, fun hccf => hcf.resolve_left hccf,
      fun hssf => hsf.resolve_left hssf⟩
    intro d hd heq
    have hmemmap : some (Value.vStr mi.id)
        ∈ (joinPipeline masters pdocs).map (fun pi => objGet pi "id") := by
      rw [hids]
      refine List.mem_map.2 ⟨d, List.mem_filter.2 ⟨hd, ?_⟩, by rw [heq]⟩
      have : (masters.find? (fun x => x.id == d.1)).isSome := by
        rw [List.find?_isSome]
        exact ⟨mi, hmi, by rw [heq]; simp⟩
      simpa using this
    have hct : ((joinPipeline masters pdocs).map (fun pi => objGet pi "id")).contains
        (some (Value.vStr mi.id)) = true := List.elem_iff.2 hmemmap
    rw [hnc] at hct
    cases hct
  · rintro ⟨hmi, hnot, hcf, hsf⟩
    simp only [availableInvestors]
    refine List.mem_filter.2 ⟨hmi, ?_⟩
    simp only [Bool.and_eq_true, Bool.not_eq_true', Bool.or_eq_true, beq_iff_eq]
    refine ⟨⟨?_, or_iff_not_imp_left.2 hcf⟩, or_iff_not_imp_left.2 hsf⟩
    cases hc : ((joinPipeline masters pdocs).map (fun pi => objGet pi "id")).contains
        (some (Value.vStr mi.id)) with
    | false => rfl
    | true =>
      exfalso
      have hmemmap := List.elem_iff.1 hc
      rw [hids] at hmemmap
      rcases List.mem_map.1 hmemmap with ⟨d, hdf, heq⟩
      rcases List.mem_filter.1 hdf with ⟨hdp, _⟩
      have : d.1 = mi.id := by simpa using heq
      exact hnot d hdp this

/-- C7 witness: two masters `i1` (classification `VC`) and `i2`
(classification `PE`), with `i2` already in the pipeline; under
classification filter `VC` and no sector filter, `i1` is offered. -/
theorem claimC7_witness :
    (⟨"i1", [("classificacao", Value.vStr "VC")]⟩ : MasterInvestor)
      ∈ availableInvestors
          [⟨"i1", [("classificacao", Value.vStr "VC")]⟩,
           ⟨"i2", [("classificacao", Value.vStr "PE")]⟩]
          (joinPipeline
            [⟨"i1", [("classificacao", Value.vStr "VC")]⟩,
             ⟨"i2", [("classificacao", Value.vStr "PE")]⟩]
            [("i2", [])]) "VC" "" :=
  (claimC7
      [⟨"i1", [("classificacao", Value.vStr "VC")]⟩,
       ⟨"i2", [("classificacao", Value.vStr "PE")]⟩]
      [("i2", [])] "VC" ""
      ⟨"i1", [("classificacao", Value.vStr "VC")]⟩
      (by decide) (by decide)).2 (by decide)

/-! ## The add-to-pipeline flow (`AddInvestorToProjectModal.handleAdd`) -/

/-- A pipeline document for one investor inside one project. -/
structure PipelineEntry where
  notaDePrioridade : Int
  status : String
  historicoDeInteracoes : List Interaction
deriving DecidableEq, Repr

/-- The document written for every chosen investor:
`{ notaDePrioridade: 3, status: 'Não Contatado', historicoDeInteracoes: [] }`. -/
def defaultPipelineEntry : PipelineEntry :=
  { notaDePrioridade := 3, status := "Não Contatado", historicoDeInteracoes := [] }

/-- `handleAdd`: an empty selection returns without building a batch;
otherwise one single batch is built with one `set` per chosen identifier —
the pipeline document id is the investor id — and committed once. -/
def handleAdd (selectedInvestors : List String) :
    Option (List (String × PipelineEntry)) :=
  if selectedInvestors.length = 0 then none
  else some (selectedInvestors.map (fun investorId => (investorId, defaultPipelineEntry)))

/-- C6: adding a chosen set of investors builds one single batch with
exactly one pipeline entry per identifier, each entry carrying default
priority 3, default status `Não Contatado` and an empty interaction
history; committing it into any pipeline collection with unique ids keeps
ids unique (no duplicates), and an investor already present has its entry
overwritten with the defaults. -/
theorem claimC6 (selectedInvestors : List String)
    (coll : List (String × PipelineEntry))
    (hne : selectedInvestors ≠ [])
    (hsel : selectedInvestors.Nodup)
    (hcoll : (coll.map Prod.fst).Nodup) :
    handleAdd selectedInvestors
      = some (selectedInvestors.map (fun i => (i, defaultPipelineEntry)))
    ∧ (selectedInvestors.map (fun i => (i, defaultPipelineEntry))).length
        = selectedInvestors.length
    ∧ ((commitBatch coll
          (selectedInvestors.map (fun i => (i, defaultPipelineEntry)))).map
        Prod.fst).Nodup
    ∧ (∀ i ∈ selectedInvestors,
        docGet (commitBatch coll
            (selectedInvestors.map (fun i => (i, defaultPipelineEntry)))) i
          = some defaultPipelineEntry) := by
  have hkeys : ((selectedInvestors.map (fun j => (j, defaultPipelineEntry))).map
      Prod.fst) = selectedInvestors := by
    rw [List.map_map]
    exact List.map_id selectedInvestors
  refine ⟨?_, List.length_map _ _,
    nodup_keys_commitBatch _ coll hcoll, ?_⟩
  · simp [handleAdd, List.length_eq_zero, hne]
  · intro i hi
    refine docGet_commitBatch_mem _ coll i defaultPipelineEntry ?_ ?_
    · rw [hkeys]
      exact hsel
    · exact List.mem_map_of_mem (fun j => (j, defaultPipelineEntry)) hi

/-- C6 witness: adding investor `a` to a pipeline that already carries an
`a` entry with different priority and status overwrites it with the
defaults, leaving a single `a` entry. -/
theorem claimC6_witness :
    handleAdd ["a"]
      = some ((["a"] : List String).map (fun i => (i, defaultPipelineEntry)))
    ∧ ((["a"] : List String).map (fun i => (i, defaultPipelineEntry))).length
        = (["a"] : List String).length
    ∧ ((commitBatch [("a", PipelineEntry.mk 1 "Contatado" [])]
          ((["a"] : List String).map (fun i => (i, defaultPipelineEntry)))).map
        Prod.fst).Nodup
    ∧ (∀ i ∈ (["a"] : List String),
        docGet (commitBatch [("a", PipelineEntry.mk 1 "Contatado" [])]
            ((["a"] : List String).map (fun i => (i, defaultPipelineEntry)))) i
          = some defaultPipelineEntry) :=
  claimC6 ["a"] [("a", PipelineEntry.mk 1 "Contatado" [])]
    (by decide) (by decide) (by decide)

/-! ## Projects snapshot handling and auto-selection -/

/-- A project document as held in memory. -/
structure Project where
  id : String
  name : String
deriving DecidableEq, Repr

/-- Client state relevant to project selection. `capturedSelectedProjectId`
is the `selectedProjectId` value the projects `onSnapshot` callback closed
over: the subscription is opened by the effect whose dependency list is
`[userId]`, so the callback keeps reading the selection as it was when the
subscription was created, not the current one. -/
structure SyncState where
  selectedProjectId : Option String
  capturedSelectedProjectId : Option String
  projects : List Project
deriving DecidableEq, Repr

/-- The events that drive project selection. -/
inductive SyncEvent where
  | subscribeProjects : SyncEvent
  | projectsSnapshot : List Project → SyncEvent
  | selectProject : String → SyncEvent
deriving DecidableEq, Repr

/-- One event step. Opening the subscription captures the current selection
into the callback's closure. A snapshot stores the project list and runs
`if (data.length > 0 && !selectedProjectId) setSelectedProjectId(data[0].id);
else if (data.length === 0) setSelectedProjectId(null);` — with
`selectedProjectId` being the captured value. The user picking a project in
the selector overwrites the current selection. -/
def syncStep (s : SyncState) : SyncEvent → SyncState
  | SyncEvent.subscribeProjects =>
      { s with capturedSelectedProjectId := s.selectedProjectId }
  | SyncEvent.projectsSnapshot data =>
      match data, s.capturedSelectedProjectId with
      | p :: rest, none =>
          { s with projects := p :: rest, selectedProjectId := some p.id }
      | [], _ => { s with projects := [], selectedProjectId := none }
      | p :: rest, some _ => { s with projects := p :: rest }
  | SyncEvent.selectProject i => { s with selectedProjectId := some i }

/-- App state at first render: no selection, nothing captured, no data. -/
def initialSyncState : SyncState :=
  { selectedProjectId := none, capturedSelectedProjectId := none, projects := [] }

/-- C8 exhibit: after sign-in the projects subscription is opened while no
project is selected, the first non-empty snapshot auto-selects `p1`, the
user then selects `p2` — and a further non-empty snapshot resets the
selection to `p1`, because the snapshot callback tests the selection value
captured when the subscription was created (`none`), not the current one.
The claim requires a non-empty snapshot arriving while `p2` is selected to
leave the selection unchanged. -/
theorem claimC8_bug :
    (List.foldl syncStep initialSyncState
        [SyncEvent.subscribeProjects,
         SyncEvent.projectsSnapshot [⟨"p1", "Projeto 1"⟩, ⟨"p2", "Projeto 2"⟩],
         SyncEvent.selectProject "p2"]).selectedProjectId = some "p2"
    ∧ (List.foldl syncStep initialSyncState
        [SyncEvent.subscribeProjects,
         SyncEvent.projectsSnapshot [⟨"p1", "Projeto 1"⟩, ⟨"p2", "Projeto 2"⟩],
         SyncEvent.selectProject "p2",
         SyncEvent.projectsSnapshot
           [⟨"p1", "Projeto 1"⟩, ⟨"p2", "Projeto 2"⟩]]).selectedProjectId
      = some "p1" := by
  constructor <;> rfl

/-! ## Interaction appends (`InvestorProfile.handleAddInteraction`) -/

/-- `item.data.toDate()`: converts a stored timestamp into a date object
denoting the same instant; with instants modelled as `Nat` the conversion
is the identity on the instant. -/
def tsToDate (t : Nat) : Nat := t

/-- `handleAddInteraction`: the guard
`if (!interactionNotes.trim() || !userId || !selectedProjectId || isMasterProfile) return;`
aborts without any write; otherwise the update writes
`[...existingInteractions, newInteraction]`, where `existingInteractions`
re-creates every stored interaction with its timestamp converted and
`newInteraction = { data: new Date(), tipo, anotacoes }`. The result is the
new value of `historicoDeInteracoes`; `none` means no write happened. -/
def handleAddInteraction (interactionNotes interactionType : String)
    (userId selectedProjectId : Option String) (isMasterProfile : Bool)
    (now : Nat) (historicoDeInteracoes : Option (List Interaction)) :
    Option (List Interaction) :=
  if jsTrim interactionNotes = "" ∨ userId = none ∨ selectedProjectId = none
      ∨ isMasterProfile = true then
    none
  else
    some
      ((match historicoDeInteracoes with
        | some l => l.map (fun item => { item with data := tsToDate item.data })
        | none => []) ++
       [{ data := now, tipo := interactionType, anotacoes := interactionNotes }])

/-- `[...investor.historicoDeInteracoes].reverse()`: most recent first. -/
def displayedHistory (hist : List Interaction) : List Interaction :=
  hist.reverse

/-- The effect of `handleAddInteraction` on the stored pipeline entry; when
the guard aborts, nothing is written and the entry stays as it is. -/
def applyAddInteraction (entry : PipelineEntry)
    (interactionNotes interactionType : String)
    (userId selectedProjectId : Option String) (isMasterProfile : Bool)
    (now : Nat) : PipelineEntry :=
  match handleAddInteraction interactionNotes interactionType userId
      selectedProjectId isMasterProfile now (some entry.historicoDeInteracoes) with
  | none => entry
  | some l => { entry with historicoDeInteracoes := l }

theorem map_tsToDate_id (l : List Interaction) :
    l.map (fun item => { item with data := tsToDate item.data }) = l := by
  induction l with
  | nil => rfl
  | cons a l ih =>
    rw [List.map_cons, ih]
    rfl

/-- C9: with non-blank notes, a user, a selected project and a project
profile, the new interaction is appended at the end of the stored
sequence, it shows up as the first element of the most-recent-first
display, and every previously stored interaction is left untouched at its
position. -/
theorem claimC9 (hist : List Interaction)
    (interactionNotes interactionType : String) (u p : String) (now : Nat)
    (hnotes : jsTrim interactionNotes ≠ "") :
    handleAddInteraction interactionNotes interactionType (some u) (some p) false now
        (some hist)
      = some (hist ++ [Interaction.mk now interactionType interactionNotes])
    ∧ displayedHistory (hist ++ [Interaction.mk now interactionType interactionNotes])
      = Interaction.mk now interactionType interactionNotes :: displayedHistory hist
    ∧ (∀ k, k < hist.length →
        (hist ++ [Interaction.mk now interactionType interactionNotes]).get? k
          = hist.get? k) := by
  refine ⟨?_, ?_, ?_⟩
  · simp only [handleAddInteraction]
    rw [if_neg (by simp [hnotes]), map_tsToDate_id]
  · simp [displayedHistory]
  · intro k hk
    exact List.get?_append hk

/-- C9 witness: appending an `Email` interaction to a one-element history
appends at the end, displays first, and leaves the old interaction
unchanged. -/
theorem claimC9_witness :
    handleAddInteraction "ligar amanhã" "Email" (some "u1") (some "proj1") false 5
        (some [Interaction.mk 1 "Chamada" "primeira conversa"])
      = some ([Interaction.mk 1 "Chamada" "primeira conversa"]
          ++ [Interaction.mk 5 "Email" "ligar amanhã"])
    ∧ displayedHistory ([Interaction.mk 1 "Chamada" "primeira conversa"]
          ++ [Interaction.mk 5 "Email" "ligar amanhã"])
      = Interaction.mk 5 "Email" "ligar amanhã"
          :: displayedHistory [Interaction.mk 1 "Chamada" "primeira conversa"]
    ∧ (∀ k, k < [Interaction.mk 1 "Chamada" "primeira conversa"].length →
        ([Interaction.mk 1 "Chamada" "primeira conversa"]
            ++ [Interaction.mk 5 "Email" "ligar amanhã"]).get? k
          = [Interaction.mk 1 "Chamada" "primeira conversa"].get? k) :=
  claimC9 [Interaction.mk 1 "Chamada" "primeira conversa"] "ligar amanhã" "Email"
    "u1" "proj1" 5 (by decide)

/-- C10: with blank or whitespace-only notes, or no authenticated user, or
no selected project, or on a master-list profile, `handleAddInteraction`
performs no write at all: the pipeline entry — its interaction history and
every other field — is unchanged. -/
theorem claimC10 (entry : PipelineEntry)
    (interactionNotes interactionType : String)
    (userId selectedProjectId : Option String) (isMasterProfile : Bool) (now : Nat)
    (hguard : jsTrim interactionNotes = "" ∨ userId = none
      ∨ selectedProjectId = none ∨ isMasterProfile = true) :
    handleAddInteraction interactionNotes interactionType userId selectedProjectId
        isMasterProfile now (some entry.historicoDeInteracoes) = none
    ∧ applyAddInteraction entry interactionNotes interactionType userId
        selectedProjectId isMasterProfile now = entry := by
  have h1 : handleAddInteraction interactionNotes interactionType userId
      selectedProjectId isMasterProfile now (some entry.historicoDeInteracoes)
      = none := by
    simp only [handleAddInteraction]
    rw [if_pos hguard]
  refine ⟨h1, ?_⟩
  simp only [applyAddInteraction, h1]

/-- C10 witness: whitespace-only notes leave a concrete pipeline entry
exactly as it was — no write at all. -/
theorem claimC10_witness :
    handleAddInteraction "   " "Email" (some "u1") (some "proj1") false 5
        (some (PipelineEntry.mk 3 "Não Contatado"
          [Interaction.mk 1 "Chamada" "primeira conversa"]).historicoDeInteracoes) = none
    ∧ applyAddInteraction
        (PipelineEntry.mk 3 "Não Contatado" [Interaction.mk 1 "Chamada" "primeira conversa"])
        "   " "Email" (some "u1") (some "proj1") false 5
      = PipelineEntry.mk 3 "Não Contatado" [Interaction.mk 1 "Chamada" "primeira conversa"] :=
  claimC10 (PipelineEntry.mk 3 "Não Contatado" [Interaction.mk 1 "Chamada" "primeira conversa"])
    "   " "Email" (some "u1") (some "proj1") false 5 (Or.inl (by decide))

end InvestidoresPacta
